import Mathlib

/-!
Verification of `searchs/marvel_assets` (src/main.py): a FastAPI wrapper
around the Marvel comics API.  This file gives a shallow embedding of the
request signer (`generate_marvel_hash`), the batch fetcher
(`fetch_character_batch`, including its Python-`re` based name filter), the
aggregation loop (`get_all_characters_names`) and the name-lookup endpoints,
and proves the specified properties about them.

The upstream HTTP service is modelled as an oracle
`Upstream : Nat → Nat → Option String → UpResp` mapping the request
parameters (limit, offset, optional `nameStartsWith`) to a response
(status code plus decoded result list).
-/

namespace Marvel

/-! ## 32-bit word arithmetic for MD5 (Python `hashlib.md5`) -/

/-- Truncate to a 32-bit word, as all MD5 arithmetic is mod 2^32. -/
def w32 (n : Nat) : Nat := n % 4294967296

/-- 32-bit addition. -/
def wadd (a b : Nat) : Nat := w32 (a + b)

/-- 32-bit bitwise complement. -/
def wnot (a : Nat) : Nat := Nat.xor (w32 a) 4294967295

/-- 32-bit left rotation by `s` places. -/
def rotl (x s : Nat) : Nat := w32 (x * 2 ^ s + w32 x / 2 ^ (32 - s))

/-- MD5 round function F (rounds 0–15). -/
def mdF (b c d : Nat) : Nat := Nat.lor (Nat.land b c) (Nat.land (wnot b) d)

/-- MD5 round function G (rounds 16–31). -/
def mdG (b c d : Nat) : Nat := Nat.lor (Nat.land d b) (Nat.land (wnot d) c)

/-- MD5 round function H (rounds 32–47). -/
def mdH (b c d : Nat) : Nat := Nat.xor b (Nat.xor c d)

/-- MD5 round function I (rounds 48–63). -/
def mdI (b c d : Nat) : Nat := Nat.xor c (Nat.lor b (wnot d))

/-- The 64 MD5 sine-derived constants `K[i] = floor(2^32 * |sin(i+1)|)`. -/
def mdK : List Nat :=
  [0xd76aa478, 0xe8c7b756, 0x242070db, 0xc1bdceee,
   0xf57c0faf, 0x4787c62a, 0xa8304613, 0xfd469501,
   0x698098d8, 0x8b44f7af, 0xffff5bb1, 0x895cd7be,
   0x6b901122, 0xfd987193, 0xa679438e, 0x49b40821,
   0xf61e2562, 0xc040b340, 0x265e5a51, 0xe9b6c7aa,
   0xd62f105d, 0x02441453, 0xd8a1e681, 0xe7d3fbc8,
   0x21e1cde6, 0xc33707d6, 0xf4d50d87, 0x455a14ed,
   0xa9e3e905, 0xfcefa3f8, 0x676f02d9, 0x8d2a4c8a,
   0xfffa3942, 0x8771f681, 0x6d9d6122, 0xfde5380c,
   0xa4beea44, 0x4bdecfa9, 0xf6bb4b60, 0xbebfbc70,
   0x289b7ec6, 0xeaa127fa, 0xd4ef3085, 0x04881d05,
   0xd9d4d039, 0xe6db99e5, 0x1fa27cf8, 0xc4ac5665,
   0xf4292244, 0x432aff97, 0xab9423a7, 0xfc93a039,
   0x655b59c3, 0x8f0ccc92, 0xffeff47d, 0x85845dd1,
   0x6fa87e4f, 0xfe2ce6e0, 0xa3014314, 0x4e0811a1,
   0xf7537e82, 0xbd3af235, 0x2ad7d2bb, 0xeb86d391]

/-- The 64 MD5 per-round left-rotation amounts. -/
def mdS : List Nat :=
  [7, 12, 17, 22, 7, 12, 17, 22, 7, 12, 17, 22, 7, 12, 17, 22,
   5, 9, 14, 20, 5, 9, 14, 20, 5, 9, 14, 20, 5, 9, 14, 20,
   4, 11, 16, 23, 4, 11, 16, 23, 4, 11, 16, 23, 4, 11, 16, 23,
   6, 10, 15, 21, 6, 10, 15, 21, 6, 10, 15, 21, 6, 10, 15, 21]

/-- State of the MD5 compression function: the four chained words. -/
structure Md5St where
  a : Nat
  b : Nat
  c : Nat
  d : Nat

/-- One MD5 round (round index `i`, message schedule `m`). -/
def md5Round (m : Nat → Nat) (i : Nat) (st : Md5St) : Md5St :=
  let fg : Nat × Nat :=
    if i < 16 then (mdF st.b st.c st.d, i)
    else if i < 32 then (mdG st.b st.c st.d, (5 * i + 1) % 16)
    else if i < 48 then (mdH st.b st.c st.d, (3 * i + 5) % 16)
    else (mdI st.b st.c st.d, (7 * i) % 16)
  let f := wadd (wadd (wadd fg.1 st.a) (mdK.getD i 0)) (m fg.2)
  ⟨st.d, wadd st.b (rotl f (mdS.getD i 0)), st.b, st.c⟩

/-- Apply MD5 rounds `0, …, n-1` in order. -/
def md5Rounds (m : Nat → Nat) : Nat → Md5St → Md5St
  | 0, st => st
  | n + 1, st => md5Round m n (md5Rounds m n st)

/-- Little-endian 32-bit word assembled from four bytes of a chunk. -/
def chunkWord (chunk : List Nat) (g : Nat) : Nat :=
  chunk.getD (4 * g) 0 + 256 * chunk.getD (4 * g + 1) 0 +
    65536 * chunk.getD (4 * g + 2) 0 + 16777216 * chunk.getD (4 * g + 3) 0

/-- MD5 compression of one 64-byte chunk into the chaining state. -/
def md5Chunk (chunk : List Nat) (st : Md5St) : Md5St :=
  let r := md5Rounds (chunkWord chunk) 64 st
  ⟨wadd st.a r.a, wadd st.b r.b, wadd st.c r.c, wadd st.d r.d⟩

/-- Process `n` consecutive 64-byte chunks of the padded message. -/
def md5Chunks : Nat → List Nat → Md5St → Md5St
  | 0, _, st => st
  | n + 1, msg, st => md5Chunks n (msg.drop 64) (md5Chunk (msg.take 64) st)

/-- MD5 padding: append `0x80`, zero bytes to 56 mod 64, then the bit
length as a little-endian 64-bit integer. -/
def md5Pad (msg : List Nat) : List Nat :=
  let padLen := (56 + 64 - (msg.length + 1) % 64) % 64
  let bitLen := (msg.length * 8) % 2 ^ 64
  msg ++ [0x80] ++ List.replicate padLen 0 ++
    (List.range 8).map (fun i => bitLen / 2 ^ (8 * i) % 256)

/-- Serialize a 32-bit word as four little-endian bytes. -/
def wordLE4 (x : Nat) : List Nat :=
  [x % 256, x / 256 % 256, x / 65536 % 256, x / 16777216 % 256]

/-- The 16-byte MD5 digest of a byte string. -/
def md5Bytes (msg : List Nat) : List Nat :=
  let padded := md5Pad msg
  let st := md5Chunks (padded.length / 64) padded
    ⟨0x67452301, 0xefcdab89, 0x98badcfe, 0x10325476⟩
  wordLE4 st.a ++ wordLE4 st.b ++ wordLE4 st.c ++ wordLE4 st.d

/-- The sixteen lowercase hexadecimal digits. -/
def hexChars : List Char := "0123456789abcdef".data

/-- Lowercase hex digit of `n % 16`. -/
def hexDigit (n : Nat) : Char := hexChars.getD (n % 16) '0'

/-- Lowercase hexadecimal rendering of a byte string (`.hexdigest()`). -/
def hexOfBytes (bs : List Nat) : String :=
  ⟨bs.foldr (fun b acc => hexDigit (b / 16) :: hexDigit b :: acc) []⟩

/-- `hashlib.md5(...).hexdigest()` of a byte string. -/
def md5Hex (msg : List Nat) : String := hexOfBytes (md5Bytes msg)

/-- UTF-8 encoding of one character (Python `str.encode()`). -/
def utf8Char (ch : Char) : List Nat :=
  let c := ch.toNat
  if c < 0x80 then [c]
  else if c < 0x800 then [0xC0 + c / 64, 0x80 + c % 64]
  else if c < 0x10000 then
    [0xE0 + c / 4096, 0x80 + c / 64 % 64, 0x80 + c % 64]
  else
    [0xF0 + c / 262144, 0x80 + c / 4096 % 64, 0x80 + c / 64 % 64, 0x80 + c % 64]

/-- UTF-8 byte encoding of a string (Python `str.encode()`). -/
def strBytes (s : String) : List Nat := s.data.foldr (fun c acc => utf8Char c ++ acc) []

/-- Python f-string rendering of an optional string: `None` renders as
the literal string `"None"`. -/
def fmtOpt : Option String → String
  | none => "None"
  | some s => s

/-- `generate_marvel_hash` from src/main.py: the MD5 hexdigest of
`f"\x7bts\x7d\x7bPRIVATE_KEY\x7d\x7bPUBLIC_KEY\x7d".encode()`, with the
process-wide keys passed explicitly. -/
def generate_marvel_hash (privateKey publicKey : Option String) (ts : String) : String :=
  md5Hex (strBytes (ts ++ fmtOpt privateKey ++ fmtOpt publicKey))

/-! ## Python string and `re` primitives used by the name filter -/

/-- The characters CPython treats as whitespace, identically in
`str.split()`, `str.isspace()` and the regex `\s` class: the ASCII
whitespace and separator controls, NEL, and the Unicode space
separators. -/
def pySpaceChars : List Char :=
  "\t\n\x0b\x0c\r\x1c\x1d\x1e\x1f \x85\xa0\u1680\u2000\u2001\u2002\u2003\u2004\u2005\u2006\u2007\u2008\u2009\u200a\u2028\u2029\u202f\u205f\u3000".data

/-- Python whitespace test used by `str.split` and the `\s` class. -/
def isPySpace (c : Char) : Bool := pySpaceChars.contains c

/-- The characters escaped by Python `re.escape` (its special-character map). -/
def reSpecialChars : List Char :=
  ['(', ')', '[', ']', '\x7b', '\x7d', '?', '*', '+', '-', '|', '^', '$',
   '\\', '.', '&', '~', '#', ' ', '\t', '\n', '\r', '\x0b', '\x0c']

/-- Python `re.escape`: prefix every special character with a backslash. -/
def reEscape (cs : List Char) : List Char :=
  cs.foldr (fun c acc => if c ∈ reSpecialChars then '\\' :: c :: acc else c :: acc) []

/-- The seven characters of the replacement text for an escaped space. -/
def classStarChars : List Char := ['[', '\\', 's', '-', ']', '*']

/-- `pattern.replace("\\ ", "[\\s-]*")`: left-to-right non-overlapping
replacement of each escaped space with the whitespace-or-hyphen class. -/
def replaceEscSpace : List Char → List Char
  | '\\' :: ' ' :: rest => classStarChars ++ replaceEscSpace rest
  | c :: rest => c :: replaceEscSpace rest
  | [] => []

/-- Tokens of the regex fragment produced by `fetch_character_batch`:
backslash-escaped or plain literal characters, and the `[\s-]*` class. -/
inductive Tok where
  | lit (c : Char)
  | classStar
deriving DecidableEq

/-- Compile the produced pattern text into tokens.  On the patterns this
program builds, every backslash escapes one literal character and every
unescaped `[` opens the inserted `[\s-]*` class. -/
def parseTokens : List Char → List Tok
  | '\\' :: c :: rest => .lit c :: parseTokens rest
  | '[' :: '\\' :: 's' :: '-' :: ']' :: '*' :: rest => .classStar :: parseTokens rest
  | c :: rest => .lit c :: parseTokens rest
  | [] => []

/-- Case-insensitive character comparison (`re.IGNORECASE`). -/
def charEqIC (a b : Char) : Bool := a.toLower == b.toLower

/-- Membership in the `[\s-]` class. -/
def isClassChar (c : Char) : Bool := isPySpace c || c == '-'

/-- Token-list matching at the start of the text, with backtracking for
the starred class.  The text beyond a full pattern match is ignored. -/
def matchTokens : List Tok → List Char → Bool
  | [], _ => true
  | .lit c :: ts, d :: ds => charEqIC c d && matchTokens ts ds
  | .lit _ :: _, [] => false
  | .classStar :: ts, [] => matchTokens ts []
  | .classStar :: ts, d :: ds =>
    matchTokens ts (d :: ds) || (isClassChar d && matchTokens (.classStar :: ts) ds)
termination_by ts ds => (ds.length, ts.length)

/-- Unanchored scan: try a match at every suffix (`re.search` without `^`). -/
def searchSuffixes (toks : List Tok) : List Char → Bool
  | [] => matchTokens toks []
  | d :: ds => matchTokens toks (d :: ds) || searchSuffixes toks ds

/-- `re.search` semantics for the produced patterns: a leading `^` anchors
the match at the start of the text. -/
def regexSearch (pat : List Char) (s : String) : Bool :=
  match pat with
  | '^' :: rest => matchTokens (parseTokens rest) s.data
  | _ => searchSuffixes (parseTokens pat) s.data

/-- The pattern built in `fetch_character_batch`:
`"^" + re.escape(name).replace("\\ ", "[\\s-]*")`. -/
def buildPattern (name : String) : List Char :=
  '^' :: replaceEscSpace (reEscape name.data)

/-- `regex.search(char["name"])` for the compiled, case-insensitive pattern. -/
def nameRegexMatch (name candidate : String) : Bool :=
  regexSearch (buildPattern name) candidate

/-- Python `str.split()` with no arguments: split on whitespace runs,
discarding empty fields (accumulator-based scan). -/
def splitAux : List Char → List Char → List String
  | [], [] => []
  | [], acc => [⟨acc.reverse⟩]
  | c :: cs, acc =>
    if isPySpace c then
      if acc.isEmpty then splitAux cs [] else ⟨acc.reverse⟩ :: splitAux cs []
    else splitAux cs (c :: acc)

/-- `name.split()` on a Python string. -/
def pySplit (s : String) : List String := splitAux s.data []

/-! ## Data model and the batch fetcher -/

/-- One decoded upstream character record: its name and
`char["comics"]["available"]`. -/
structure MarvelChar where
  name : String
  comics_available : Nat
deriving DecidableEq

/-- One decoded upstream response: HTTP status and
`data["data"]["results"]`. -/
structure UpResp where
  status : Nat
  results : List MarvelChar
deriving DecidableEq

/-- A flattened `{"name": …, "comics_count": …}` entry. -/
structure CharacterSummary where
  name : String
  comics_count : Nat
deriving DecidableEq

/-- The exceptions the embedded code can raise: FastAPI `HTTPException`
with status and detail, and Python `IndexError`. -/
inductive PyErr where
  | httpErr (status : Nat) (detail : String)
  | indexError
deriving DecidableEq

/-- The upstream Marvel API, as an oracle from the request parameters
(limit, offset, optional `nameStartsWith`) to the response. -/
abbrev Upstream := Nat → Nat → Option String → UpResp

/-- Python truthiness of an optional string: `None` and `""` are falsy. -/
def strTruthy : Option String → Option String
  | none => none
  | some s => if s = "" then none else some s

/-- The unfiltered flattening comprehension over a result page. -/
def flattenResults (rs : List MarvelChar) : List CharacterSummary :=
  rs.map fun c => ⟨c.name, c.comics_available⟩

/-- `fetch_character_batch` from src/main.py.  When a truthy `name` is
given, the first whitespace token is sent upstream as `nameStartsWith`
(indexing `name.split()[0]` raises `IndexError` on an all-whitespace
query), a non-200 status raises an `HTTPException` with that status and
the static detail, and a non-empty page is filtered by the compiled
pattern. -/
def fetch_character_batch (up : Upstream) (limit offset : Nat)
    (name : Option String) : Except PyErr (List CharacterSummary) :=
  match strTruthy name with
  | some s =>
    match pySplit s with
    | [] => .error .indexError
    | searchTerm :: _ =>
      let resp := up limit offset (some searchTerm)
      if resp.status ≠ 200 then
        .error (.httpErr resp.status "Failed to fetch characters")
      else if resp.results.isEmpty then
        .ok (flattenResults resp.results)
      else
        .ok ((resp.results.filter fun c => nameRegexMatch s c.name).map
          fun c => (⟨c.name, c.comics_available⟩ : CharacterSummary))
  | none =>
    let resp := up limit offset none
    if resp.status ≠ 200 then
      .error (.httpErr resp.status "Failed to fetch characters")
    else
      .ok (flattenResults resp.results)

/-! ## The aggregation loop and the exposed endpoints -/

/-- `BATCH_SIZE` from src/main.py: characters retrieved per request. -/
def BATCH_SIZE : Nat := 50

/-- Ghost record of one upstream call made by the aggregation loop:
the requested page size, the offset sent, and the number of entries the
call returned. -/
structure CallRec where
  requested : Nat
  offset : Nat
  returned : Nat
deriving DecidableEq

/-- Result of the aggregation loop: the calls it issued (in order) and
its outcome. -/
structure AggOut where
  calls : List CallRec
  result : Except PyErr (List (String × Nat))

/-- Python dict assignment `d[k] = v`: overwrite an existing key in
place, otherwise append in insertion order. -/
def insertAssoc (l : List (String × Nat)) (k : String) (v : Nat) : List (String × Nat) :=
  if l.any (fun p => p.1 = k) then l.map (fun p => if p.1 = k then (k, v) else p)
  else l ++ [(k, v)]

/-- The update loop `for character in batch: d[name] = comics_count`. -/
def insertAll (acc : List (String × Nat)) (batch : List CharacterSummary) :
    List (String × Nat) :=
  batch.foldl (fun a c => insertAssoc a c.name c.comics_count) acc

/-- The `while total_retrieved < limit` loop of
`get_all_characters_names`: request `min(BATCH_SIZE, limit -
total_retrieved)` entries at `offset + total_retrieved`, merge the batch
into the dictionary, and stop when the batch is shorter than
`BATCH_SIZE` (or on an exception).  Terminates because each continuing
iteration retrieves at least `BATCH_SIZE > 0` entries. -/
def aggLoop (up : Upstream) (limit offset0 total : Nat) (acc : List (String × Nat)) :
    AggOut :=
  if total < limit then
    let bs := min BATCH_SIZE (limit - total)
    match fetch_character_batch up bs (offset0 + total) none with
    | .error e =>
      ⟨[⟨bs, offset0 + total, (up bs (offset0 + total) none).results.length⟩], .error e⟩
    | .ok batch =>
      let acc2 := insertAll acc batch
      if hb : batch.length < BATCH_SIZE then
        ⟨[⟨bs, offset0 + total, batch.length⟩], .ok acc2⟩
      else
        let rest := aggLoop up limit offset0 (total + batch.length) acc2
        ⟨⟨bs, offset0 + total, batch.length⟩ :: rest.calls, rest.result⟩
  else ⟨[], .ok acc⟩
termination_by limit - total
decreasing_by
  simp only [BATCH_SIZE, not_lt] at hb
  omega

/-- `get_all_characters_names` from src/main.py (`GET /characters_all`). -/
def get_all_characters_names (up : Upstream) (limit offset : Nat) :
    Except PyErr (List (String × Nat)) :=
  (aggLoop up limit offset 0 []).result

/-- `search_characters` from src/main.py: forward to
`fetch_character_batch` at offset 0, re-raising an `HTTPException` with
a prefixed detail message.  An `IndexError` is not an `HTTPException`
and propagates unchanged. -/
def search_characters (up : Upstream) (search_name : String) (limit : Nat) :
    Except PyErr (List CharacterSummary) :=
  match fetch_character_batch up limit 0 (some search_name) with
  | .ok chars => .ok chars
  | .error (.httpErr s d) => .error (.httpErr s ("Error searching for character: " ++ d))
  | .error .indexError => .error .indexError

/-- The character-search route of src/main.py (`search_characters_endpoint`). -/
def search_characters_endpoint (up : Upstream) (name : String) (limit : Nat) :
    Except PyErr (List CharacterSummary) :=
  search_characters up name limit

/-- The character-by-name route of src/main.py (`get_character_by_name`):
404 when the filtered list is empty, otherwise the name-to-count
dictionary. -/
def get_character_by_name (up : Upstream) (character_name : String) (limit offset : Nat) :
    Except PyErr (List (String × Nat)) :=
  match fetch_character_batch up limit offset (some character_name) with
  | .error e => .error e
  | .ok characters =>
    if characters.isEmpty then
      .error (.httpErr 404 ("No character found with name " ++ character_name))
    else
      .ok (characters.foldl (fun a c => insertAssoc a c.name c.comics_count) [])

/-! ## Auxiliary definitions used in the statements -/

/-- Total number of entries returned by a list of calls (the loop's
`total_retrieved` after those calls). -/
def sumReturned (cs : List CallRec) : Nat := (cs.map CallRec.returned).sum

/-- Case-insensitive prefix test on character lists, used to state
what the compiled `^spider` pattern accepts. -/
def isPrefixCI : List Char → List Char → Bool
  | [], _ => true
  | _ :: _, [] => false
  | q :: qs, d :: ds => charEqIC q d && isPrefixCI qs ds

/-- Concrete upstream for witnesses: always status 200 and exactly the
requested number of entries. -/
def upFull : Upstream := fun l _ _ => ⟨200, List.replicate l ⟨"A", 1⟩⟩

/-- Concrete upstream for witnesses: always status 500. -/
def upErr : Upstream := fun _ _ _ => ⟨500, []⟩

/-- Concrete upstream for witnesses: status 200 with an empty page. -/
def upEmpty : Upstream := fun _ _ _ => ⟨200, []⟩

/-- Concrete upstream for witnesses: status 200 with a fixed two-hero
page, the mock page of the repository tests. -/
def upHeroes : Upstream :=
  fun _ _ _ => ⟨200, [⟨"Spider-Man", 2572⟩, ⟨"SPIDER-WOMAN", 100⟩]⟩

/-! ### Sanity checks of the MD5 embedding against RFC 1321 test vectors -/

set_option maxRecDepth 40000 in
theorem md5_vector_empty : md5Hex (strBytes "") = "d41d8cd98f00b204e9800998ecf8427e" := by
  decide

set_option maxRecDepth 40000 in
theorem md5_vector_abc : md5Hex (strBytes "abc") = "900150983cd24fb0d6963f7d28e17f72" := by
  decide

set_option maxRecDepth 80000 in
theorem md5_vector_two_chunks :
    md5Hex (strBytes
      "12345678901234567890123456789012345678901234567890123456789012345678901234567890") =
      "57edf4a22be3c955ac49da2e2107b67a" := by
  decide

/-! ### Shape of the hexdigest -/

theorem md5Bytes_length (msg : List Nat) : (md5Bytes msg).length = 16 := by
  simp [md5Bytes, wordLE4]

theorem hexOfBytes_data_length (bs : List Nat) :
    (hexOfBytes bs).data.length = 2 * bs.length := by
  induction bs with
  | nil => rfl
  | cons b bs ih =>
    simp only [hexOfBytes] at ih ⊢
    simp only [List.foldr_cons, List.length_cons, ih]
    omega

theorem mem_hexOfBytes (bs : List Nat) :
    ∀ c ∈ (hexOfBytes bs).data, c ∈ hexChars := by
  induction bs with
  | nil => intro c hc; simp [hexOfBytes] at hc
  | cons b bs ih =>
    intro c hc
    simp only [hexOfBytes, List.foldr_cons, List.mem_cons] at hc
    rcases hc with h | h | h
    · subst h
      have hlt : b / 16 % 16 < hexChars.length := by
        show b / 16 % 16 < 16; omega
      rw [hexDigit, List.getD_eq_getElem _ _ hlt]
      exact List.getElem_mem _
    · subst h
      have hlt : b % 16 < hexChars.length := by
        show b % 16 < 16; omega
      rw [hexDigit, List.getD_eq_getElem _ _ hlt]
      exact List.getElem_mem _
    · exact ih c h

theorem md5Hex_length (msg : List Nat) : (md5Hex msg).length = 32 := by
  show (md5Hex msg).data.length = 32
  rw [md5Hex, hexOfBytes_data_length, md5Bytes_length]

/-- C1: for key strings, `generate_marvel_hash(ts)` is the lowercase
hexadecimal encoding (32 characters) of the MD5 digest of the byte
encoding of the plain concatenation `ts ++ private_key ++ public_key`,
with no separator between the parts. -/
theorem generate_marvel_hash_is_md5_of_concat (priv pub ts : String) :
    generate_marvel_hash (some priv) (some pub) ts =
      md5Hex (strBytes (ts ++ priv ++ pub)) ∧
    (generate_marvel_hash (some priv) (some pub) ts).length = 32 ∧
    ∀ c ∈ (generate_marvel_hash (some priv) (some pub) ts).data, c ∈ hexChars := by
  refine ⟨rfl, md5Hex_length _, ?_⟩
  exact mem_hexOfBytes _

/-- C9: signing is deterministic — two invocations of
`generate_marvel_hash` with the same timestamp string and key values
return identical digests, each a 32-character string of lowercase hex
digits. -/
theorem generate_marvel_hash_deterministic (priv pub : Option String) (ts h₁ h₂ : String)
    (e₁ : h₁ = generate_marvel_hash priv pub ts)
    (e₂ : h₂ = generate_marvel_hash priv pub ts) :
    h₁ = h₂ ∧ h₁.length = 32 ∧ ∀ c ∈ h₁.data, c ∈ hexChars := by
  subst e₁; subst e₂
  exact ⟨rfl, md5Hex_length _, mem_hexOfBytes _⟩

/-- Witness for C9 at the test timestamp from the repository tests. -/
theorem generate_marvel_hash_deterministic_witness :
    (generate_marvel_hash (some "k1") (some "k2") "1234567890").length = 32 :=
  (generate_marvel_hash_deterministic (some "k1") (some "k2") "1234567890" _ _ rfl rfl).2.1

/-! ## Branch equations for the aggregation loop -/

/-- `fetch_character_batch` with no name filter, written as a single
conditional on the upstream status. -/
theorem fetch_none (up : Upstream) (l o : Nat) :
    fetch_character_batch up l o none =
      if (up l o none).status ≠ 200 then
        .error (.httpErr (up l o none).status "Failed to fetch characters")
      else .ok (flattenResults (up l o none).results) := rfl

theorem fetch_none_ok_length (up : Upstream) (l o : Nat) (batch : List CharacterSummary)
    (hf : fetch_character_batch up l o none = .ok batch) :
    batch.length = (up l o none).results.length := by
  rw [fetch_none] at hf
  by_cases h : (up l o none).status = 200
  · rw [if_neg (not_not_intro h)] at hf
    cases hf
    simp [flattenResults]
  · rw [if_pos h] at hf
    cases hf

theorem aggLoop_stop (up : Upstream) (limit offset0 total : Nat)
    (acc : List (String × Nat)) (hge : ¬ total < limit) :
    aggLoop up limit offset0 total acc = ⟨[], .ok acc⟩ := by
  rw [aggLoop.eq_def, if_neg hge]

theorem aggLoop_error (up : Upstream) (limit offset0 total : Nat)
    (acc : List (String × Nat)) (e : PyErr) (hlt : total < limit)
    (hf : fetch_character_batch up (min BATCH_SIZE (limit - total)) (offset0 + total) none =
      .error e) :
    aggLoop up limit offset0 total acc =
      ⟨[⟨min BATCH_SIZE (limit - total), offset0 + total,
          (up (min BATCH_SIZE (limit - total)) (offset0 + total) none).results.length⟩],
        .error e⟩ := by
  rw [aggLoop.eq_def, if_pos hlt]
  simp only [hf]

theorem aggLoop_break (up : Upstream) (limit offset0 total : Nat)
    (acc : List (String × Nat)) (batch : List CharacterSummary) (hlt : total < limit)
    (hf : fetch_character_batch up (min BATCH_SIZE (limit - total)) (offset0 + total) none =
      .ok batch)
    (hb : batch.length < BATCH_SIZE) :
    aggLoop up limit offset0 total acc =
      ⟨[⟨min BATCH_SIZE (limit - total), offset0 + total, batch.length⟩],
        .ok (insertAll acc batch)⟩ := by
  rw [aggLoop.eq_def, if_pos hlt]
  simp only [hf, dif_pos hb]

theorem aggLoop_cont (up : Upstream) (limit offset0 total : Nat)
    (acc : List (String × Nat)) (batch : List CharacterSummary) (hlt : total < limit)
    (hf : fetch_character_batch up (min BATCH_SIZE (limit - total)) (offset0 + total) none =
      .ok batch)
    (hb : ¬ batch.length < BATCH_SIZE) :
    aggLoop up limit offset0 total acc =
      ⟨⟨min BATCH_SIZE (limit - total), offset0 + total, batch.length⟩ ::
          (aggLoop up limit offset0 (total + batch.length) (insertAll acc batch)).calls,
        (aggLoop up limit offset0 (total + batch.length) (insertAll acc batch)).result⟩ := by
  rw [aggLoop.eq_def, if_pos hlt]
  simp only [hf, dif_neg hb]

/-! ## Size of the accumulated dictionary -/

theorem insertAssoc_length_le (l : List (String × Nat)) (k : String) (v : Nat) :
    (insertAssoc l k v).length ≤ l.length + 1 := by
  rw [insertAssoc]
  split
  · simp
  · simp

theorem insertAll_length_le (batch : List CharacterSummary) :
    ∀ acc : List (String × Nat), (insertAll acc batch).length ≤ acc.length + batch.length := by
  induction batch with
  | nil => intro acc; simp [insertAll]
  | cons c batch ih =>
    intro acc
    have h1 := insertAssoc_length_le acc c.name c.comics_count
    have h2 := ih (insertAssoc acc c.name c.comics_count)
    simp only [insertAll, List.foldl_cons] at h2 ⊢
    simp only [List.length_cons]
    omega

/-! ## Invariants of the aggregation loop -/

theorem agg_calls_mul (up : Upstream) (limit offset0 : Nat) :
    ∀ (total : Nat) (acc : List (String × Nat)),
      (aggLoop up limit offset0 total acc).calls.length * BATCH_SIZE ≤
        (limit - total) + (BATCH_SIZE - 1) := by
  intro total acc
  induction total, acc using aggLoop.induct up limit offset0 with
  | case1 total acc hlt bs e hf =>
    rw [aggLoop_error up limit offset0 total acc e hlt hf]
    simp only [List.length_cons, List.length_nil, BATCH_SIZE]
    omega
  | case2 total acc hlt bs batch hf hb =>
    rw [aggLoop_break up limit offset0 total acc batch hlt hf hb]
    simp only [List.length_cons, List.length_nil, BATCH_SIZE]
    omega
  | case3 total acc hlt bs batch hf acc2 hb ih =>
    rw [aggLoop_cont up limit offset0 total acc batch hlt hf hb]
    have ihx : (aggLoop up limit offset0 (total + batch.length)
        (insertAll acc batch)).calls.length * BATCH_SIZE ≤
        (limit - (total + batch.length)) + (BATCH_SIZE - 1) := ih
    simp only [List.length_cons, BATCH_SIZE] at ihx ⊢
    simp only [BATCH_SIZE] at hb
    omega
  | case4 total acc hge =>
    rw [aggLoop_stop up limit offset0 total acc hge]
    simp

theorem agg_result_size (up : Upstream) (limit offset0 : Nat)
    (hUp : ∀ l o, ((up l o none).results).length ≤ l) :
    ∀ (total : Nat) (acc : List (String × Nat)) (m : List (String × Nat)),
      (aggLoop up limit offset0 total acc).result = .ok m →
      m.length ≤ acc.length + (limit - total) := by
  intro total acc
  induction total, acc using aggLoop.induct up limit offset0 with
  | case1 total acc hlt bs e hf =>
    intro m hm
    rw [aggLoop_error up limit offset0 total acc e hlt hf] at hm
    simp at hm
  | case2 total acc hlt bs batch hf hb =>
    intro m hm
    rw [aggLoop_break up limit offset0 total acc batch hlt hf hb] at hm
    simp only [Except.ok.injEq] at hm
    subst hm
    have h1 := insertAll_length_le batch acc
    have h2 := fetch_none_ok_length up (min BATCH_SIZE (limit - total)) (offset0 + total)
      batch hf
    have h3 := hUp (min BATCH_SIZE (limit - total)) (offset0 + total)
    have h4 : min BATCH_SIZE (limit - total) ≤ limit - total := Nat.min_le_right _ _
    omega
  | case3 total acc hlt bs batch hf acc2 hb ih =>
    intro m hm
    rw [aggLoop_cont up limit offset0 total acc batch hlt hf hb] at hm
    have h0 : m.length ≤ (insertAll acc batch).length + (limit - (total + batch.length)) :=
      ih m hm
    have h1 := insertAll_length_le batch acc
    have h2 := fetch_none_ok_length up (min BATCH_SIZE (limit - total)) (offset0 + total)
      batch hf
    have h3 := hUp (min BATCH_SIZE (limit - total)) (offset0 + total)
    have h4 : min BATCH_SIZE (limit - total) ≤ limit - total := Nat.min_le_right _ _
    omega
  | case4 total acc hge =>
    intro m hm
    rw [aggLoop_stop up limit offset0 total acc hge] at hm
    simp only [Except.ok.injEq] at hm
    subst hm
    omega

theorem agg_offsets (up : Upstream) (limit offset0 : Nat) :
    ∀ (total : Nat) (acc : List (String × Nat)) (i : Nat) (c : CallRec),
      (aggLoop up limit offset0 total acc).calls.get? i = some c →
      c.offset = offset0 + total +
        sumReturned (((aggLoop up limit offset0 total acc).calls).take i) := by
  intro total acc
  induction total, acc using aggLoop.induct up limit offset0 with
  | case1 total acc hlt bs e hf =>
    intro i c hc
    rw [aggLoop_error up limit offset0 total acc e hlt hf] at hc ⊢
    match i with
    | 0 =>
      simp only [List.get?, Option.some.injEq] at hc
      subst hc
      simp [sumReturned]
    | j + 1 => simp [List.get?] at hc
  | case2 total acc hlt bs batch hf hb =>
    intro i c hc
    rw [aggLoop_break up limit offset0 total acc batch hlt hf hb] at hc ⊢
    match i with
    | 0 =>
      simp only [List.get?, Option.some.injEq] at hc
      subst hc
      simp [sumReturned]
    | j + 1 => simp [List.get?] at hc
  | case3 total acc hlt bs batch hf acc2 hb ih =>
    intro i c hc
    rw [aggLoop_cont up limit offset0 total acc batch hlt hf hb] at hc ⊢
    match i with
    | 0 =>
      simp only [List.get?, Option.some.injEq] at hc
      subst hc
      simp [sumReturned]
    | j + 1 =>
      simp only [List.get?] at hc
      have h2 : c.offset = offset0 + (total + batch.length) +
          sumReturned (((aggLoop up limit offset0 (total + batch.length)
            (insertAll acc batch)).calls).take j) := ih j c hc
      simp only [List.take_succ_cons, sumReturned, List.map_cons, List.sum_cons] at h2 ⊢
      omega
  | case4 total acc hge =>
    intro i c hc
    rw [aggLoop_stop up limit offset0 total acc hge] at hc
    simp [List.get?] at hc

/-- Concrete two-call trace used by the loop witnesses: with upstream
pages always full, limit 60 issues a call for 50 at offset 0 and a call
for 10 at offset 50. -/
theorem upFull_agg60_calls :
    (aggLoop upFull 60 0 0 []).calls = [⟨50, 0, 50⟩, ⟨10, 50, 10⟩] := by
  rw [aggLoop_cont upFull 60 0 0 [] (flattenResults (List.replicate 50 ⟨"A", 1⟩))
    (by decide) rfl (by decide)]
  show (⟨50, 0, 50⟩ : CallRec) ::
    (aggLoop upFull 60 0 50 (insertAll [] (flattenResults (List.replicate 50 ⟨"A", 1⟩)))).calls =
    [⟨50, 0, 50⟩, ⟨10, 50, 10⟩]
  rw [aggLoop_break upFull 60 0 50 (insertAll [] (flattenResults (List.replicate 50 ⟨"A", 1⟩)))
    (flattenResults (List.replicate 10 ⟨"A", 1⟩)) (by decide) rfl (by decide)]
  decide

/-- C2: for every limit L ≥ 1 (with the fixed `BATCH_SIZE = 50`) and an
upstream that never returns more entries than requested, the aggregation
loop of `get_all_characters_names` issues at most `⌈L / BATCH_SIZE⌉`
upstream fetch calls, and a returned mapping has at most L entries. -/
theorem agg_call_count_and_entry_bound (up : Upstream) (limit offset : Nat)
    (hL : 1 ≤ limit) (hUp : ∀ l o, ((up l o none).results).length ≤ l) :
    (aggLoop up limit offset 0 []).calls.length ≤
      (limit + (BATCH_SIZE - 1)) / BATCH_SIZE ∧
    ∀ m, get_all_characters_names up limit offset = .ok m → m.length ≤ limit := by
  constructor
  · have h := agg_calls_mul up limit offset 0 []
    rw [Nat.le_div_iff_mul_le (by simp [BATCH_SIZE] : 0 < BATCH_SIZE)]
    simpa using h
  · intro m hm
    have hm2 : (aggLoop up limit offset 0 []).result = .ok m := hm
    have := agg_result_size up limit offset hUp 0 [] m hm2
    simpa using this

/-- Witness for C2 at limit 2 with a full upstream. -/
theorem agg_call_count_and_entry_bound_witness :
    (1 : Nat) ≤ 2 ∧
    ((aggLoop upFull 2 0 0 []).calls.length ≤ (2 + (BATCH_SIZE - 1)) / BATCH_SIZE ∧
     ∀ m, get_all_characters_names upFull 2 0 = .ok m → m.length ≤ 2) := by
  refine ⟨by decide, agg_call_count_and_entry_bound upFull 2 0 (by decide) ?_⟩
  intro l o
  simp [upFull]

/-- C3: in the aggregation loop, a page strictly shorter than its
requested size only occurs at the last issued call — equivalently, every
call that is not the last returned at least the requested number of
entries, so a short page terminates the aggregation with no further
upstream calls. -/
theorem agg_short_page_is_last (up : Upstream) (limit offset0 total : Nat)
    (acc : List (String × Nat)) :
    ∀ (i : Nat) (c : CallRec), (aggLoop up limit offset0 total acc).calls.get? i = some c →
      i + 1 < (aggLoop up limit offset0 total acc).calls.length →
      c.requested ≤ c.returned := by
  induction total, acc using aggLoop.induct up limit offset0 with
  | case1 total acc hlt bs e hf =>
    intro i c hc h
    rw [aggLoop_error up limit offset0 total acc e hlt hf] at h
    simp at h
  | case2 total acc hlt bs batch hf hb =>
    intro i c hc h
    rw [aggLoop_break up limit offset0 total acc batch hlt hf hb] at h
    simp at h
  | case3 total acc hlt bs batch hf acc2 hb ih =>
    intro i c hc h
    rw [aggLoop_cont up limit offset0 total acc batch hlt hf hb] at hc h
    match i with
    | 0 =>
      simp only [List.get?, Option.some.injEq] at hc
      subst hc
      show min BATCH_SIZE (limit - total) ≤ batch.length
      simp only [BATCH_SIZE, not_lt] at hb ⊢
      omega
    | j + 1 =>
      simp only [List.get?] at hc
      simp only [List.length_cons] at h
      refine ih j c hc ?_
      show j + 1 <
        (aggLoop up limit offset0 (total + batch.length) (insertAll acc batch)).calls.length
      omega
  | case4 total acc hge =>
    intro i c hc h
    rw [aggLoop_stop up limit offset0 total acc hge] at h
    simp at h

/-- Witness for C3: in the two-call trace of `upFull` at limit 60, the
non-last call returned its full requested size. -/
theorem agg_short_page_is_last_witness :
    (aggLoop upFull 60 0 0 []).calls.get? 0 = some ⟨50, 0, 50⟩ ∧
    0 + 1 < (aggLoop upFull 60 0 0 []).calls.length ∧
    (50 : Nat) ≤ 50 := by
  have hc : (aggLoop upFull 60 0 0 []).calls.get? 0 = some ⟨50, 0, 50⟩ := by
    rw [upFull_agg60_calls]; rfl
  have hl : 0 + 1 < (aggLoop upFull 60 0 0 []).calls.length := by
    rw [upFull_agg60_calls]; decide
  exact ⟨hc, hl, agg_short_page_is_last upFull 60 0 0 [] 0 ⟨50, 0, 50⟩ hc hl⟩

/-- C4: every call issued by the aggregation loop of
`get_all_characters_names` carries offset equal to the caller-supplied
starting offset plus `total_retrieved`, the number of entries actually
returned by the preceding calls (not the sizes requested). -/
theorem agg_offset_is_start_plus_total_retrieved (up : Upstream) (limit offset : Nat)
    (i : Nat) (c : CallRec)
    (hc : (aggLoop up limit offset 0 []).calls.get? i = some c) :
    c.offset = offset + sumReturned (((aggLoop up limit offset 0 []).calls).take i) := by
  have h := agg_offsets up limit offset 0 [] i c hc
  simpa using h

/-- Witness for C4: the second call of the `upFull` limit-60 trace goes
out at offset 0 + 50 after 50 entries were retrieved. -/
theorem agg_offset_is_start_plus_total_retrieved_witness :
    (aggLoop upFull 60 0 0 []).calls.get? 1 = some ⟨10, 50, 10⟩ ∧
    (50 : Nat) = 0 + sumReturned (((aggLoop upFull 60 0 0 []).calls).take 1) := by
  have hc : (aggLoop upFull 60 0 0 []).calls.get? 1 = some ⟨10, 50, 10⟩ := by
    rw [upFull_agg60_calls]; rfl
  exact ⟨hc, agg_offset_is_start_plus_total_retrieved upFull 60 0 1 ⟨10, 50, 10⟩ hc⟩

/-- C8: a non-200 upstream response makes the fetch fail with an
`HTTPException` carrying exactly the upstream status code and the static
message "Failed to fetch characters", and an aggregation in progress —
whatever partial mapping `acc` it has accumulated — aborts with that
error, returning no mapping. -/
theorem upstream_non200_aborts_aggregation (up : Upstream) (limit offset0 total : Nat)
    (acc : List (String × Nat)) (hlt : total < limit)
    (hst : (up (min BATCH_SIZE (limit - total)) (offset0 + total) none).status ≠ 200) :
    fetch_character_batch up (min BATCH_SIZE (limit - total)) (offset0 + total) none =
      .error (.httpErr (up (min BATCH_SIZE (limit - total)) (offset0 + total) none).status
        "Failed to fetch characters") ∧
    (aggLoop up limit offset0 total acc).result =
      .error (.httpErr (up (min BATCH_SIZE (limit - total)) (offset0 + total) none).status
        "Failed to fetch characters") := by
  have hfe : fetch_character_batch up (min BATCH_SIZE (limit - total)) (offset0 + total)
      none = .error (.httpErr (up (min BATCH_SIZE (limit - total)) (offset0 + total)
        none).status "Failed to fetch characters") := by
    rw [fetch_none, if_pos hst]
  refine ⟨hfe, ?_⟩
  rw [aggLoop_error up limit offset0 total acc _ hlt hfe]

/-- Witness for C8: a 500 upstream aborts an aggregation that already
holds a non-empty partial mapping, and the partial mapping is not
returned. -/
theorem upstream_non200_aborts_aggregation_witness :
    (0 : Nat) < 10 ∧
    (aggLoop upErr 10 0 0 [("Partial", 7)]).result =
      .error (.httpErr 500 "Failed to fetch characters") := by
  refine ⟨by decide, ?_⟩
  exact (upstream_non200_aborts_aggregation upErr 10 0 0 [("Partial", 7)] (by decide)
    (by decide)).2


/-! ## The name filter and the lookup endpoints -/

theorem splitAux_all_space (cs : List Char) (h : ∀ c ∈ cs, isPySpace c = true) :
    splitAux cs [] = [] := by
  induction cs with
  | nil => rfl
  | cons c cs ih =>
    have hc : isPySpace c = true := h c (by simp)
    simp only [splitAux, hc, if_true, List.isEmpty_nil]
    exact ih fun d hd => h d (List.mem_cons_of_mem c hd)

theorem splitAux_ne_nil_of_acc (cs : List Char) :
    ∀ acc : List Char, acc ≠ [] → splitAux cs acc ≠ [] := by
  induction cs with
  | nil =>
    intro acc hacc
    cases acc with
    | nil => exact absurd rfl hacc
    | cons a as => simp [splitAux]
  | cons c cs ih =>
    intro acc hacc
    cases acc with
    | nil => exact absurd rfl hacc
    | cons a as =>
      by_cases hc : isPySpace c = true
      · simp [splitAux, hc]
      · simp only [splitAux, hc, if_false, Bool.false_eq_true]
        exact ih (c :: a :: as) (by simp)

theorem splitAux_ne_nil_of_sol (cs : List Char) :
    ∀ acc : List Char, (∃ c ∈ cs, isPySpace c = false) → splitAux cs acc ≠ [] := by
  induction cs with
  | nil => intro acc h; simp at h
  | cons c cs ih =>
    intro acc h
    by_cases hc : isPySpace c = true
    · have h2 : ∃ d ∈ cs, isPySpace d = false := by
        obtain ⟨d, hd, hdf⟩ := h
        rcases List.mem_cons.mp hd with rfl | hmem
        · rw [hc] at hdf; cases hdf
        · exact ⟨d, hmem, hdf⟩
      cases acc with
      | nil =>
        simp only [splitAux, hc, if_true, List.isEmpty_nil]
        exact ih [] h2
      | cons a as => simp [splitAux, hc]
    · cases acc with
      | nil =>
        simp only [splitAux, hc, if_false, Bool.false_eq_true, List.isEmpty_nil]
        exact splitAux_ne_nil_of_acc cs [c] (by simp)
      | cons a as =>
        simp only [splitAux, hc, if_false, Bool.false_eq_true]
        exact splitAux_ne_nil_of_acc cs (c :: a :: as) (by simp)

/-- C10: a non-empty, all-whitespace name query makes
`fetch_character_batch` raise `IndexError` from `name.split()[0]` before
any upstream call; the indexing is safe exactly when the query has at
least one non-whitespace character. -/
theorem fetch_blank_query_index_error (up : Upstream) (limit offset : Nat) (s : String)
    (hne : s ≠ "") :
    ((∀ c ∈ s.data, isPySpace c = true) →
      fetch_character_batch up limit offset (some s) = .error .indexError) ∧
    ((∃ c ∈ s.data, isPySpace c = false) →
      fetch_character_batch up limit offset (some s) ≠ .error .indexError) := by
  constructor
  · intro hall
    have hsplit : pySplit s = [] := splitAux_all_space s.data hall
    simp only [fetch_character_batch, strTruthy, if_neg hne, hsplit]
  · intro hex
    have hsplit : pySplit s ≠ [] := splitAux_ne_nil_of_sol s.data [] hex
    obtain ⟨t, rest, ht⟩ : ∃ t rest, pySplit s = t :: rest := by
      cases hp : pySplit s with
      | nil => exact absurd hp hsplit
      | cons t rest => exact ⟨t, rest, rfl⟩
    simp only [fetch_character_batch, strTruthy, if_neg hne, ht]
    split
    · simp
    · split <;> simp

/-- Witness for C10 at the single-space query and at the file-separator
control U+001C, which CPython `str.split()` also treats as whitespace. -/
theorem fetch_blank_query_index_error_witness :
    ((" " ≠ "") ∧ fetch_character_batch upEmpty 20 0 (some " ") = .error .indexError) ∧
    (("\x1c" ≠ "") ∧
      fetch_character_batch upEmpty 20 0 (some "\x1c") = .error .indexError) :=
  ⟨⟨by decide, (fetch_blank_query_index_error upEmpty 20 0 " " (by decide)).1 (by decide)⟩,
    ⟨by decide,
      (fetch_blank_query_index_error upEmpty 20 0 "\x1c" (by decide)).1 (by decide)⟩⟩

/-- The filtering branch of `fetch_character_batch`: a truthy query
whose split is non-empty, a 200 status and a non-empty page yield the
regex-filtered flattened page. -/
theorem fetch_with_name_ok (up : Upstream) (l o : Nat) (s tok : String)
    (toks : List String) (hne : s ≠ "") (hsp : pySplit s = tok :: toks)
    (hst : (up l o (some tok)).status = 200)
    (hres : (up l o (some tok)).results ≠ []) :
    fetch_character_batch up l o (some s) =
      .ok (((up l o (some tok)).results.filter fun c => nameRegexMatch s c.name).map
        fun c => (⟨c.name, c.comics_available⟩ : CharacterSummary)) := by
  simp only [fetch_character_batch, strTruthy, if_neg hne, hsp]
  rw [if_neg (not_not_intro hst)]
  rw [if_neg ?hempty]
  case hempty => simpa using hres

/-- C5: the name filter tolerates hyphen/space variation — an upstream
page entry named "Spider-Man" is kept by `fetch_character_batch` for the
query "spider man", whose internal space is compiled to a run of
whitespace-or-hyphen characters. -/
theorem filter_matches_spider_man (up : Upstream) (l o : Nat) (c : MarvelChar)
    (hst : (up l o (some "spider")).status = 200)
    (hmem : c ∈ (up l o (some "spider")).results)
    (hname : c.name = "Spider-Man") :
    ∃ out, fetch_character_batch up l o (some "spider man") = .ok out ∧
      (⟨c.name, c.comics_available⟩ : CharacterSummary) ∈ out := by
  have hres : (up l o (some "spider")).results ≠ [] := by
    intro h
    rw [h] at hmem
    simp at hmem
  refine ⟨_, fetch_with_name_ok up l o "spider man" "spider" ["man"] (by decide) rfl hst
    hres, ?_⟩
  refine List.mem_map.mpr ⟨c, List.mem_filter.mpr ⟨hmem, ?_⟩, rfl⟩
  rw [hname]
  simp [nameRegexMatch, buildPattern, reEscape, reSpecialChars, replaceEscSpace,
    regexSearch, parseTokens, matchTokens, charEqIC, isClassChar, isPySpace,
    classStarChars]

/-- Witness for C5 on the two-hero mock page. -/
theorem filter_matches_spider_man_witness :
    ∃ out, fetch_character_batch upHeroes 20 0 (some "spider man") = .ok out ∧
      (⟨"Spider-Man", 2572⟩ : CharacterSummary) ∈ out :=
  filter_matches_spider_man upHeroes 20 0 ⟨"Spider-Man", 2572⟩ (by decide) (by decide) rfl

theorem matchTokens_lits (qs : List Char) :
    ∀ ds : List Char, matchTokens (qs.map Tok.lit) ds = isPrefixCI qs ds := by
  induction qs with
  | nil => intro ds; simp [matchTokens, isPrefixCI]
  | cons q qs ih =>
    intro ds
    cases ds with
    | nil => simp [matchTokens, isPrefixCI]
    | cons d ds => simp only [List.map_cons, matchTokens, isPrefixCI, ih]

/-- C6: the name filter is case-insensitive and prefix-anchored — every
entry of an upstream page whose name starts, ignoring case, with the
query "spider" (for example "Spider-Man" and "SPIDER-WOMAN") is kept by
`fetch_character_batch`. -/
theorem filter_case_insensitive_anchored (up : Upstream) (l o : Nat) (c : MarvelChar)
    (hst : (up l o (some "spider")).status = 200)
    (hmem : c ∈ (up l o (some "spider")).results)
    (hpre : isPrefixCI "spider".data c.name.data = true) :
    ∃ out, fetch_character_batch up l o (some "spider") = .ok out ∧
      (⟨c.name, c.comics_available⟩ : CharacterSummary) ∈ out := by
  have hres : (up l o (some "spider")).results ≠ [] := by
    intro h
    rw [h] at hmem
    simp at hmem
  refine ⟨_, fetch_with_name_ok up l o "spider" "spider" [] (by decide) rfl hst hres, ?_⟩
  refine List.mem_map.mpr ⟨c, List.mem_filter.mpr ⟨hmem, ?_⟩, rfl⟩
  show nameRegexMatch "spider" c.name = true
  have hrw : nameRegexMatch "spider" c.name =
      matchTokens ("spider".data.map Tok.lit) c.name.data := rfl
  rw [hrw, matchTokens_lits]
  exact hpre

/-- Witness for C6: both "Spider-Man" and "SPIDER-WOMAN" are kept for
the query "spider". -/
theorem filter_case_insensitive_anchored_witness :
    (∃ out, fetch_character_batch upHeroes 20 0 (some "spider") = .ok out ∧
      (⟨"Spider-Man", 2572⟩ : CharacterSummary) ∈ out) ∧
    (∃ out, fetch_character_batch upHeroes 20 0 (some "spider") = .ok out ∧
      (⟨"SPIDER-WOMAN", 100⟩ : CharacterSummary) ∈ out) :=
  ⟨filter_case_insensitive_anchored upHeroes 20 0 ⟨"Spider-Man", 2572⟩ (by decide)
      (by decide) (by decide),
    filter_case_insensitive_anchored upHeroes 20 0 ⟨"SPIDER-WOMAN", 100⟩ (by decide)
      (by decide) (by decide)⟩

/-- C7 counterexample: the search route returns status 200 with an empty
body for a query with zero upstream matches, instead of a 404 — refuting
the claim for `search_characters_endpoint`. -/
theorem search_endpoint_empty_ok_counterexample :
    search_characters_endpoint upEmpty "spider" 20 = .ok [] ∧
    ∀ (st : Nat) (d : String),
      search_characters_endpoint upEmpty "spider" 20 ≠ .error (.httpErr st d) := by
  have e : search_characters_endpoint upEmpty "spider" 20 = .ok [] := rfl
  refine ⟨e, ?_⟩
  intro st d h
  rw [e] at h
  exact Except.noConfusion h

/-- C7 (amended): on an empty filtered result, `get_character_by_name`
fails with 404 and the "No character found" message and never returns an
empty 200 body, while `search_characters_endpoint` returns the empty
list with status 200. -/
theorem by_name_404_when_empty (up : Upstream) (n : String) (l : Nat)
    (h : fetch_character_batch up l 0 (some n) = .ok []) :
    get_character_by_name up n l 0 =
      .error (.httpErr 404 ("No character found with name " ++ n)) ∧
    search_characters_endpoint up n l = .ok [] := by
  constructor
  · simp only [get_character_by_name, h]
    rfl
  · simp only [search_characters_endpoint, search_characters, h]

/-- Witness for the amended C7 with an empty upstream. -/
theorem by_name_404_when_empty_witness :
    fetch_character_batch upEmpty 20 0 (some "spider") = .ok [] ∧
    (get_character_by_name upEmpty "spider" 20 0 =
        .error (.httpErr 404 ("No character found with name " ++ "spider")) ∧
      search_characters_endpoint upEmpty "spider" 20 = .ok []) :=
  ⟨rfl, by_name_404_when_empty upEmpty "spider" 20 rfl⟩

end Marvel
